import Mathlib

set_option maxHeartbeats 1000000

open scoped Classical

/-!
Verification development for the navigator repository: a shallow embedding of
the schedule-source client (yapi.py), the graph store adapter and materialiser
(lazygraph.py) and the bidirectional A* search core (a_star.py), together with
theorems settling the frozen claims about the natural-language specification.

Conventions of the embedding:
* machine floats (timestamps, kilometres, costs) are modelled as real numbers,
  except in fully discrete components where rationals or naturals suffice;
* Python functions that can raise are modelled with an explicit outcome type
  `PyOutcome`; the possible exception values are gathered in `PyErr`;
* external I/O (HTTP responses, thread pool completions, the Neo4j database)
  is passed in as explicit parameters, so every function is a pure function
  of its inputs.
-/

/-- Python exception values relevant to the embedded code paths. -/
inductive PyErr where
  | attributeError (name : String)
  | typeError
  | jsonDecodeError
  | connectionError
  deriving DecidableEq, Repr

/-- Outcome of running a Python function: a returned value or a raised,
uncaught exception. -/
inductive PyOutcome (α : Type) where
  | ret (a : α)
  | raised (e : PyErr)
  deriving DecidableEq, Repr

/-- Sequencing of Python computations: an exception propagates. -/
def pyBind {α β : Type} (o : PyOutcome α) (f : α → PyOutcome β) : PyOutcome β :=
  match o with
  | .ret a => f a
  | .raised e => .raised e

/-! ### Schedule source client: `yapi.station_schedule` (yapi.py lines 276-339)

The HTTP layer is a parameter: `GetResult` describes what `self.get` does for
one request (raise `requests.HTTPError`, raise some other transport exception
such as `ConnectionError`/`Timeout`, or return a body).  The body is either
malformed (so `json.loads` raises) or parses to a `SchedData`. -/

/-- One entry of a parsed schedule array; the code only ever reads
`entry["thread"]["uid"]` (with default "UNK"). -/
structure ScheduleEntry where
  thread_uid : String
  deriving DecidableEq, Repr

/-- Parsed JSON envelope of a schedule response, restricted to the fields the
code reads: truthiness of `data.get("error")`, the `schedule` array, and the
pagination counters.  `pagination_limit = none` models an absent "limit" key
(the code then falls back to the call's `limit` argument). -/
structure SchedData where
  error : Bool
  schedule : List ScheduleEntry
  pagination_total : Nat
  pagination_limit : Option Nat
  deriving DecidableEq, Repr

/-- Result of `json.loads` on a response body. -/
inductive Body where
  | malformed
  | parsed (d : SchedData)
  deriving DecidableEq, Repr

/-- Behaviour of one `self.get(...)` HTTP request. -/
inductive GetResult where
  | httpError
  | connError
  | ok (b : Body)
  deriving DecidableEq, Repr

/-- Adding a station code to the in-memory miss set (`set.add`). -/
def missInsert (station : String) (miss : List String) : List String :=
  if station ∈ miss then miss else station :: miss

/-- Result of one `station_schedule` call: the Python outcome, the new miss
set, and how many HTTP requests were issued. -/
structure SSResult where
  outcome : PyOutcome (Option SchedData)
  miss : List String
  httpCalls : Nat
  deriving DecidableEq, Repr

/-- Embedding of `yAPI.station_schedule` (yapi.py lines 276-339).  `resp1` is
the behaviour of the first HTTP request, `resp2` of the pagination follow-up
request (issued only when `total > current_limit`).  Every addition to the
miss set is flushed to disk by `_save_miss_cache`; only the set itself is
modelled. -/
def station_schedule (miss : List String) (station : String) (limit : Nat)
    (resp1 resp2 : GetResult) : SSResult :=
  if station ∈ miss then
    ⟨.ret none, miss, 0⟩
  else
    match resp1 with
    | .httpError => ⟨.ret none, missInsert station miss, 1⟩
    | .connError => ⟨.raised .connectionError, miss, 1⟩
    | .ok .malformed => ⟨.raised .jsonDecodeError, miss, 1⟩
    | .ok (.parsed data) =>
      if data.error then ⟨.ret none, missInsert station miss, 1⟩
      else if data.schedule.isEmpty then ⟨.ret none, miss, 1⟩
      else
        let total := data.pagination_total
        let current_limit := data.pagination_limit.getD limit
        if current_limit < total then
          match resp2 with
          | .ok (.parsed data2) => ⟨.ret (some data2), miss, 2⟩
          | _ => ⟨.ret (some data), miss, 2⟩
        else ⟨.ret (some data), miss, 1⟩

/-! ### Bulk fetches (yapi.py lines 192-211 and 368-387)

A worker either completes with the underlying call's return value or raises;
the `outcomes` list is in `as_completed` order (some permutation of the
submitted queries). -/

/-- Completion of one thread-pool future. -/
inductive WorkerOutcome (α : Type) where
  | completed (a : α)
  | raised
  deriving DecidableEq, Repr

/-- Embedding of `yAPI.bulk_station_schedule`: for every completed future the
result is appended; a raised future appends `None`. -/
def bulk_station_schedule {α : Type} (outcomes : List (WorkerOutcome (Option α))) :
    List (Option α) :=
  outcomes.foldl
    (fun acc o =>
      match o with
      | .completed r => acc ++ [r]
      | .raised => acc ++ [none])
    []

/-- Embedding of `yAPI.bulk_thread_stops`: a completed future appends its
result; a raised future only logs and sleeps, appending nothing. -/
def bulk_thread_stops {α : Type} (outcomes : List (WorkerOutcome (Option α))) :
    List (Option α) :=
  outcomes.foldl
    (fun acc o =>
      match o with
      | .completed r => acc ++ [r]
      | .raised => acc)
    []

/-! ### Graph store: WALKABLE edge upserts (lazygraph.py lines 59-73 and 105-150)

The store is the multiset of WALKABLE relationships together with the set of
Station nodes; Cypher MERGE creates the relationship pattern unless a
relationship matching the whole pattern already exists, and the MATCH clauses
require both endpoint nodes to exist. -/

/-- A WALKABLE relationship held in the store. -/
structure WalkRel where
  from_code : String
  to_code : String
  distance_km : ℚ
  deriving DecidableEq, Repr

/-- The portion of the graph store touched by walk-edge upserts. -/
structure GraphStore where
  stations : List String
  walks : List WalkRel
  deriving DecidableEq, Repr

/-- Embedding of `TransportGraph.create_walkable_edge`: MERGE on the pattern
`(s1)-[r:WALKABLE]->(s2)` (endpoints only), setting `distance_km` ON CREATE
and leaving an existing relationship untouched. -/
def create_walkable_edge (g : GraphStore) (code1 code2 : String) (distance : ℚ) :
    GraphStore :=
  if code1 ∈ g.stations ∧ code2 ∈ g.stations then
    if g.walks.any (fun r => decide (r.from_code = code1 ∧ r.to_code = code2)) then g
    else { g with walks := g.walks ++ [⟨code1, code2, distance⟩] }
  else g

/-- One walk-edge record of the batch passed to `create_walkable_edges_bulk`. -/
structure WalkEdgeInput where
  from_code : String
  to_code : String
  distance_km : ℚ
  deriving DecidableEq, Repr

/-- One UNWIND step of `create_walkable_edges_bulk`: MERGE on the pattern
`(s1)-[r:WALKABLE {distance_km: edge.distance_km}]->(s2)`, whose natural key
therefore includes the distance. -/
def mergeWalkableBulkOne (g : GraphStore) (e : WalkEdgeInput) : GraphStore :=
  if e.from_code ∈ g.stations ∧ e.to_code ∈ g.stations then
    if g.walks.any (fun r =>
        decide (r.from_code = e.from_code ∧ r.to_code = e.to_code ∧
          r.distance_km = e.distance_km)) then g
    else { g with walks := g.walks ++ [⟨e.from_code, e.to_code, e.distance_km⟩] }
  else g

/-- Embedding of `TransportGraph.create_walkable_edges_bulk` (APOC periodic
iterate with `parallel: false`, hence a sequential fold over the batch). -/
def create_walkable_edges_bulk (g : GraphStore) (edges : List WalkEdgeInput) :
    GraphStore :=
  edges.foldl mergeWalkableBulkOne g

/-! ### Station catalogue (yapi.py `stations_list` payload) -/

/-- The `codes` sub-dictionary of a catalogue station. -/
structure CatCodes where
  yandex_code : Option String
  esr_code : Option String

/-- A raw catalogue station entry (country → region → settlement → station). -/
structure CatStation where
  title : Option String
  codes : CatCodes
  latitude : Option ℝ
  longitude : Option ℝ
  transport_type : Option String
  station_type : Option String

/-- A settlement of the catalogue. -/
structure CatSettlement where
  title : Option String
  yandex_code : Option String
  stations : List CatStation

/-- A region of the catalogue. -/
structure CatRegion where
  settlements : List CatSettlement

/-- A country of the catalogue. -/
structure CatCountry where
  regions : List CatRegion

/-- The parsed `stations_list` payload. -/
structure StationsData where
  countries : List CatCountry

/-- All stations of the catalogue, in the traversal order of the four nested
loops used throughout yapi.py. -/
def catalogueStations (d : StationsData) : List CatStation :=
  d.countries.flatMap fun c => c.regions.flatMap fun r => r.settlements.flatMap fun s => s.stations

/-- The flat station-info dictionary built by `search_stations`,
`fetch_station_info` and `walkable_stations`. -/
structure StationInfo where
  title : Option String
  yandex_code : Option String
  esr_code : Option String
  latitude : Option ℝ
  longitude : Option ℝ
  transport_type : Option String
  station_type : Option String

/-- Building the flat station-info dictionary from a raw catalogue entry. -/
def mkStationInfo (s : CatStation) : StationInfo :=
  ⟨s.title, s.codes.yandex_code, s.codes.esr_code, s.latitude, s.longitude,
    s.transport_type, s.station_type⟩

/-- One catalogue station of the `fetch_station_info` scan: kept when its
yandex code is present in the requested set, skipped otherwise (in
particular when the code is missing). -/
def fetchInfoStep (station_ids : List String) (acc : List StationInfo)
    (st : CatStation) : List StationInfo :=
  match st.codes.yandex_code with
  | some code => if code ∈ station_ids then acc ++ [mkStationInfo st] else acc
  | none => acc

/-- Embedding of `yAPI.fetch_station_info` restricted to the case where
`station_ids` is a set of codes (as in `populate_transport_edges`): keep
every catalogue station whose yandex code is present in the set; stations
whose code is absent from the set, or missing, are skipped. -/
def fetch_station_info (d : StationsData) (station_ids : List String) :
    List StationInfo :=
  (catalogueStations d).foldl (fetchInfoStep station_ids) []

/-! ### Materialiser: `parse_thread` and `populate_transport_edges`
(lazygraph.py lines 200-220 and 401-422) -/

/-- One stop of a thread response: the yandex code (after the "UNK" default)
and the parsed departure/arrival instants as POSIX seconds. -/
structure ThreadStop where
  code : String
  departure : ℝ
  arrival : ℝ

/-- A thread response: its uid and ordered stops. -/
structure ThreadJson where
  uid : String
  stops : List ThreadStop

/-- A transport-edge record produced by `parse_thread`. -/
structure TransportEdgeInput where
  from_code : String
  to_code : String
  departure : ℝ
  arrival : ℝ
  thread_uid : String

/-- The consecutive-stops loop of `parse_thread`: for each adjacent pair an
edge record, and both endpoint codes appended to the stations list. -/
def parse_thread_pairs (uid : String) : List ThreadStop → List TransportEdgeInput × List String
  | [] => ([], [])
  | a :: rest =>
    match rest with
    | [] => ([], [])
    | b :: _ =>
      let tail := parse_thread_pairs uid rest
      (⟨a.code, b.code, a.departure, b.arrival, uid⟩ :: tail.1,
        a.code :: b.code :: tail.2)

/-- Embedding of `TransportGraph.parse_thread`. -/
def parse_thread (t : ThreadJson) : List TransportEdgeInput × List String :=
  parse_thread_pairs t.uid t.stops

/-- Accumulation step over `bulk_thread_stops` results inside
`populate_transport_edges`: a null result contributes nothing. -/
def accumulateThreads (acc : List TransportEdgeInput × List String)
    (tj : Option ThreadJson) : List TransportEdgeInput × List String :=
  match tj with
  | some t => (acc.1 ++ (parse_thread t).1, acc.2 ++ (parse_thread t).2)
  | none => acc

/-- A write issued to the graph store, in issue order. -/
inductive StoreOp where
  | upsertStations (infos : List StationInfo)
  | upsertTransportEdges (edges : List TransportEdgeInput)

/-- Embedding of `TransportGraph.populate_transport_edges` as the ordered list
of store writes it performs.  `sched` is the (possibly null/falsy) merged
schedule JSON; `threadResults` models what `api.bulk_thread_stops` returned
for the collected thread uids; `cat` is the station catalogue behind
`api.fetch_station_info`. -/
def populate_transport_edges (sched : Option SchedData)
    (threadResults : List (Option ThreadJson)) (cat : StationsData) : List StoreOp :=
  match sched with
  | none => []
  | some sj =>
    let _thread_list := sj.schedule.map (fun e => e.thread_uid)
    let parsed := threadResults.foldl accumulateThreads ([], [])
    let parsed_station_info := fetch_station_info cat parsed.2
    [.upsertStations parsed_station_info, .upsertTransportEdges parsed.1]

/-- The station codes contained in the station-upsert batches of a write
trace; used to observe which stations a call upserted. -/
def upsertedStationCodes (ops : List StoreOp) : List (Option String) :=
  ops.flatMap fun op =>
    match op with
    | .upsertStations infos => infos.map (fun i => i.yandex_code)
    | .upsertTransportEdges _ => []

/-! ### Great-circle distance and walk candidates (yapi.py lines 13-29, 389-429)

Floating-point trigonometry is idealised over the reals.  Python truthiness on
a coordinate (`not lat`) is false exactly when the value is absent (`None`) or
equal to 0.0; `truthyCoord` captures the truthy case. -/

/-- Truthiness of an optional float coordinate: present and nonzero. -/
def truthyCoord : Option ℝ → Prop
  | none => False
  | some x => x ≠ 0

/-- The `math.radians` conversion. -/
noncomputable def deg2rad (x : ℝ) : ℝ := x * Real.pi / 180

/-- Embedding of `are_stations_within_distance` (yapi.py lines 13-29): the
haversine distance together with the non-strict comparison against the
threshold. -/
noncomputable def are_stations_within_distance
    (lat1 lon1 lat2 lon2 threshold_km : ℝ) : Prop × ℝ :=
  let rlat1 := deg2rad lat1
  let rlon1 := deg2rad lon1
  let rlat2 := deg2rad lat2
  let rlon2 := deg2rad lon2
  let dlat := rlat2 - rlat1
  let dlon := rlon2 - rlon1
  let a := Real.sin (dlat / 2) ^ 2 +
    Real.cos rlat1 * Real.cos rlat2 * Real.sin (dlon / 2) ^ 2
  let c := 2 * Real.arcsin (Real.sqrt a)
  let distance := 6371.0 * c
  (distance ≤ threshold_km, distance)

/-- Innermost loop of `yAPI.walkable_stations` over the stations of one
settlement: skip candidates with falsy coordinates, skip the queried station
itself (comparison of the two optional yandex codes), keep a candidate iff
`are_stations_within_distance` holds, recording its distance. -/
noncomputable def walkOverStations (initInfo : StationInfo) (threshold : ℝ) :
    List CatStation → List StationInfo × List ℝ
  | [] => ([], [])
  | st :: rest =>
    let tail := walkOverStations initInfo threshold rest
    if ¬ truthyCoord st.latitude ∨ ¬ truthyCoord st.longitude then tail
    else if initInfo.yandex_code = st.codes.yandex_code then tail
    else
      let vd := are_stations_within_distance
        (initInfo.latitude.getD 0) (initInfo.longitude.getD 0)
        (st.latitude.getD 0) (st.longitude.getD 0) threshold
      if vd.1 then (mkStationInfo st :: tail.1, vd.2 :: tail.2) else tail

/-- Settlement loop of `walkable_stations`. -/
noncomputable def walkOverSettlements (initInfo : StationInfo) (threshold : ℝ) :
    List CatSettlement → List StationInfo × List ℝ
  | [] => ([], [])
  | s :: rest =>
    let here := walkOverStations initInfo threshold s.stations
    let tail := walkOverSettlements initInfo threshold rest
    (here.1 ++ tail.1, here.2 ++ tail.2)

/-- Region loop of `walkable_stations`. -/
noncomputable def walkOverRegions (initInfo : StationInfo) (threshold : ℝ) :
    List CatRegion → List StationInfo × List ℝ
  | [] => ([], [])
  | r :: rest =>
    let here := walkOverSettlements initInfo threshold r.settlements
    let tail := walkOverRegions initInfo threshold rest
    (here.1 ++ tail.1, here.2 ++ tail.2)

/-- Country loop of `walkable_stations`. -/
noncomputable def walkOverCountries (initInfo : StationInfo) (threshold : ℝ) :
    List CatCountry → List StationInfo × List ℝ
  | [] => ([], [])
  | c :: rest =>
    let here := walkOverRegions initInfo threshold c.regions
    let tail := walkOverCountries initInfo threshold rest
    (here.1 ++ tail.1, here.2 ++ tail.2)

/-- Embedding of `yAPI.walkable_stations` (yapi.py lines 389-429): if the
queried station's longitude or latitude is falsy the result is empty,
otherwise the four nested catalogue loops collect candidates. -/
noncomputable def walkable_stations (initInfo : StationInfo) (d : StationsData)
    (threshold : ℝ) : List StationInfo × List ℝ :=
  if ¬ truthyCoord initInfo.longitude ∨ ¬ truthyCoord initInfo.latitude then ([], [])
  else walkOverCountries initInfo threshold d.countries

/-! ### Search core helpers (a_star.py lines 12-70, 211-220) -/

/-- Embedding of `haversine_km` (a_star.py lines 12-22). -/
noncomputable def haversine_km (lat1 lon1 lat2 lon2 : ℝ) : ℝ :=
  let dlat := deg2rad (lat2 - lat1)
  let dlon := deg2rad (lon2 - lon1)
  let a := Real.sin (dlat / 2) ^ 2 +
    Real.cos (deg2rad lat1) * Real.cos (deg2rad lat2) * Real.sin (dlon / 2) ^ 2
  let c := 2 * Real.arcsin (Real.sqrt a)
  6371.0 * c

/-- The lat/lon cache built by `load_latlon_cache`: station code to
coordinates.  Only stations with non-null coordinates are inserted. -/
abbrev LatLonCache := List (String × ℝ × ℝ)

/-- Embedding of `estimate_edge_distance_km` (a_star.py lines 211-220): zero
when either endpoint is missing from the cache, otherwise haversine.  (Unlike
`heuristic_km` this helper does not test coordinate truthiness.) -/
noncomputable def estimate_edge_distance_km (station_a station_b : String)
    (cache : LatLonCache) : ℝ :=
  match cache.lookup station_a, cache.lookup station_b with
  | some (lat1, lon1), some (lat2, lon2) => haversine_km lat1 lon1 lat2 lon2
  | _, _ => 0

/-- Embedding of `heuristic_km` (a_star.py lines 39-63): minimum haversine
distance from the station to any goal station with truthy cached coordinates;
0 when the station is absent from the cache, has falsy coordinates, or no
goal qualifies (the `best == inf` fallback). -/
noncomputable def heuristic_km (station_code : String) (goal_stations : List String)
    (cache : LatLonCache) : ℝ :=
  match cache.lookup station_code with
  | none => 0
  | some (lat1, lon1) =>
    if lat1 = 0 ∨ lon1 = 0 then 0
    else
      let dists := goal_stations.filterMap fun gst =>
        match cache.lookup gst with
        | none => none
        | some (lat2, lon2) =>
          if lat2 = 0 ∨ lon2 = 0 then none
          else some (haversine_km lat1 lon1 lat2 lon2)
      let best := dists.foldl
        (fun (b : Option ℝ) dist =>
          match b with
          | none => some dist
          | some x => if dist < x then some dist else some x)
        none
      best.getD 0

/-- Cost ratio for transport edges in cost mode (a_star.py line 69). -/
def TRANSPORT_RATIO : ℝ := 1.0

/-- Walk speed constant (a_star.py line 70 and lazygraph.py line 471). -/
def WALK_SPEED_SEC_PER_KM : ℝ := 720

/-! ### Store adapter query answers: `TransportGraph.get_neighbors`
(lazygraph.py lines 438-541) -/

/-- The `route_info` dictionary attached to a neighbour tuple. -/
structure RouteInfo where
  thread_uid : String
  departure_time : Option ℝ
  arrival_time : Option ℝ

/-- One neighbour tuple `(nbr_code, cost_value, mode, route_info, dist_km,
travel_time_sec)` as returned by the store adapter.  `cost_value` is the
second position of the tuple: the distance for walk edges, the placeholder 1
for transport edges. -/
structure EdgeTuple where
  nbr_code : String
  cost_value : ℝ
  edge_mode : String
  route_info : RouteInfo
  dist_km : ℝ
  travel_sec : ℝ

/-- A WALKABLE or TRANSPORT relationship as read back from the store. -/
structure NeoRel where
  is_transport : Bool
  neighbor_code : String
  distance_km : Option ℝ
  departure_time : Option ℝ
  arrival_time : Option ℝ
  thread_uid : Option String

/-- Embedding of `TransportGraph.get_neighbors` over the relationships the
database returns for a station: WALKABLE rows yield walk tuples with
`travel_time_sec = distance_km * 720` (distance defaulting to 1.0); TRANSPORT
rows yield transport tuples carrying the departure/arrival instants (kept only
when both are present) and their difference as travel time. -/
def get_neighbors (rels : List NeoRel) : List EdgeTuple :=
  rels.foldl
    (fun acc r =>
      if r.is_transport then
        let times : Option ℝ × Option ℝ :=
          match r.departure_time, r.arrival_time with
          | some dep, some arr => (some dep, some arr)
          | _, _ => (none, none)
        let travel : ℝ :=
          match times with
          | (some dep, some arr) => arr - dep
          | _ => 0
        acc ++ [⟨r.neighbor_code, 1, "transport",
          ⟨r.thread_uid.getD "", times.1, times.2⟩, 0, travel⟩]
      else
        let dist := r.distance_km.getD 1
        acc ++ [⟨r.neighbor_code, dist, "walk", ⟨"", none, none⟩, dist,
          dist * WALK_SPEED_SEC_PER_KM⟩])
    []

/-! ### Neighbour relaxation (a_star.py lines 72-209)

`forward_neighbors` and `backward_neighbors` first look up the four
`_fetch_*_edges_from_db` attributes on the `TransportGraph` object; the class
defines none of them, so in the embedding attribute resolution consults the
list of method names actually defined by lazygraph.py.  The per-edge
computations of their loops are factored into `relax_*` functions. -/

/-- The methods defined by `class TransportGraph` in lazygraph.py. -/
def transportGraphMethodNames : List String :=
  ["__init__", "close", "create_station_node", "create_walkable_edge",
   "create_transport_edge", "create_walkable_edges_bulk",
   "create_transport_edges_bulk", "parse_thread", "add_station_if_not_exists",
   "add_stations_bulk", "add_walkable_edges_in_same_settlement",
   "ensure_transport_edge", "remove_transport_edge", "populate_transport_edges",
   "populate_walkable_edges", "get_neighbors"]

/-- Python attribute resolution on a `TransportGraph` instance. -/
def tgHasMethod (name : String) : Bool := transportGraphMethodNames.contains name

/-- One entry of the neighbour lists built by `forward_neighbors` and
`backward_neighbors`: `(code, edge_cost, instant, edge_mode, dist_km)`. -/
structure NbrOut where
  code : String
  cost : ℝ
  next_time : Option ℝ
  edge_mode : String
  dist_km : ℝ

/-- Transport-edge body of the `forward_neighbors` loop (a_star.py lines
100-124).  In time mode a missing instant would make the Python comparison
`dep_time > current_time` raise `TypeError`. -/
noncomputable def relax_forward_transport (mode : String) (current_time : Option ℝ)
    (station_code : String) (cache : LatLonCache) (e : EdgeTuple) :
    PyOutcome (Option NbrOut) :=
  if e.edge_mode ≠ "transport" then .ret none
  else if mode = "time" then
    match e.route_info.departure_time, e.route_info.arrival_time, current_time with
    | some dep, some arr, some now =>
      let wait : ℝ := if now < dep then dep - now else 0
      .ret (some ⟨e.nbr_code, wait + (arr - dep), some arr, "transport",
        estimate_edge_distance_km station_code e.nbr_code cache⟩)
    | _, _, _ => .raised .typeError
  else
    let dist := estimate_edge_distance_km station_code e.nbr_code cache
    .ret (some ⟨e.nbr_code, dist * TRANSPORT_RATIO, none, "transport", dist⟩)

/-- Walk-edge body of the `forward_neighbors` loop (a_star.py lines 127-144);
`w.cost_value` is position 2 of the tuple, bound to `dist_km` there. -/
noncomputable def relax_forward_walk (mode : String) (current_time : Option ℝ)
    (w : EdgeTuple) : PyOutcome (Option NbrOut) :=
  if w.edge_mode ≠ "walk" then .ret none
  else if mode = "time" then
    match current_time with
    | some now =>
      .ret (some ⟨w.nbr_code, w.travel_sec, some (now + w.travel_sec), "walk",
        w.cost_value⟩)
    | none => .raised .typeError
  else
    .ret (some ⟨w.nbr_code, 0, none, "walk", w.cost_value⟩)

/-- Transport-edge body of the `backward_neighbors` loop (a_star.py lines
166-188): cost is the pure travel time and the new instant is the departure. -/
noncomputable def relax_backward_transport (mode : String) (current_time : Option ℝ)
    (station_code : String) (cache : LatLonCache) (e : EdgeTuple) :
    PyOutcome (Option NbrOut) :=
  if e.edge_mode ≠ "transport" then .ret none
  else if mode = "time" then
    match e.route_info.departure_time, e.route_info.arrival_time with
    | some dep, some arr =>
      .ret (some ⟨e.nbr_code, arr - dep, some dep, "transport",
        estimate_edge_distance_km e.nbr_code station_code cache⟩)
    | _, _ => .raised .typeError
  else
    let dist := estimate_edge_distance_km e.nbr_code station_code cache
    .ret (some ⟨e.nbr_code, dist * TRANSPORT_RATIO, none, "transport", dist⟩)

/-- Walk-edge body of the `backward_neighbors` loop (a_star.py lines 191-207):
the instant moves backward by the walk time. -/
noncomputable def relax_backward_walk (mode : String) (current_time : Option ℝ)
    (w : EdgeTuple) : PyOutcome (Option NbrOut) :=
  if w.edge_mode ≠ "walk" then .ret none
  else if mode = "time" then
    match current_time with
    | some now =>
      .ret (some ⟨w.nbr_code, w.travel_sec, some (now - w.travel_sec), "walk",
        w.cost_value⟩)
    | none => .raised .typeError
  else
    .ret (some ⟨w.nbr_code, 0, none, "walk", w.cost_value⟩)

/-- Running a relaxation body over a tuple list, collecting the produced
neighbours and propagating an exception. -/
noncomputable def relaxList (f : EdgeTuple → PyOutcome (Option NbrOut)) :
    List EdgeTuple → PyOutcome (List NbrOut)
  | [] => .ret []
  | e :: rest =>
    match f e with
    | .raised err => .raised err
    | .ret none => relaxList f rest
    | .ret (some n) =>
      match relaxList f rest with
      | .raised err => .raised err
      | .ret l => .ret (n :: l)

/-- The behaviour the `_fetch_*_edges_from_db` store queries would have, were
the attribute lookups to succeed.  The populate branch of the Python code
re-queries the same store, which this view already reflects. -/
structure TGStoreBehavior where
  outbound_transport : String → Option ℝ → List EdgeTuple
  outbound_walkable : String → ℝ → List EdgeTuple
  inbound_transport : String → Option ℝ → List EdgeTuple
  inbound_walkable : String → ℝ → List EdgeTuple

/-- Embedding of `forward_neighbors` (a_star.py lines 72-146).  The first
statement evaluates the attribute `transport_graph.
_fetch_outbound_transport_edges_from_db`; resolution against the methods the
class defines decides whether the call proceeds. -/
noncomputable def forward_neighbors (store : TGStoreBehavior) (station_code : String)
    (current_g : ℝ) (current_time : Option ℝ) (mode : String)
    (cache : LatLonCache) : PyOutcome (List NbrOut) :=
  if tgHasMethod "_fetch_outbound_transport_edges_from_db" then
    let edges := store.outbound_transport station_code current_time
    if tgHasMethod "_fetch_outbound_walkable_edges_from_db" then
      let walkable := store.outbound_walkable station_code 1
      match relaxList (relax_forward_transport mode current_time station_code cache) edges with
      | .raised err => .raised err
      | .ret l1 =>
        match relaxList (relax_forward_walk mode current_time) walkable with
        | .raised err => .raised err
        | .ret l2 => .ret (l1 ++ l2)
    else .raised (.attributeError "_fetch_outbound_walkable_edges_from_db")
  else .raised (.attributeError "_fetch_outbound_transport_edges_from_db")

/-- Embedding of `backward_neighbors` (a_star.py lines 148-209), symmetric to
`forward_neighbors` with the inbound attribute names. -/
noncomputable def backward_neighbors (store : TGStoreBehavior) (station_code : String)
    (current_g : ℝ) (current_time : Option ℝ) (mode : String)
    (cache : LatLonCache) : PyOutcome (List NbrOut) :=
  if tgHasMethod "_fetch_inbound_transport_edges_from_db" then
    let edges := store.inbound_transport station_code current_time
    if tgHasMethod "_fetch_inbound_walkable_edges_from_db" then
      let walkable := store.inbound_walkable station_code 9999999
      match relaxList (relax_backward_transport mode current_time station_code cache) edges with
      | .raised err => .raised err
      | .ret l1 =>
        match relaxList (relax_backward_walk mode current_time) walkable with
        | .raised err => .raised err
        | .ret l2 => .ret (l1 ++ l2)
    else .raised (.attributeError "_fetch_inbound_walkable_edges_from_db")
  else .raised (.attributeError "_fetch_inbound_transport_edges_from_db")

/-! ### Bidirectional A* (a_star.py lines 226-440)

Python dictionaries become association lists (`dictInsert`/`List.lookup`);
the two `heapq` priority queues become multisets of `(f, station)` pairs from
which `popMin` extracts the lexicographically least pair, exactly the tuple
order `heapq` pops.  `float("inf")` sentinels become `none`. -/

/-- Dictionary update `d[k] = v`. -/
def dictInsert {α : Type} (k : String) (v : α) (d : List (String × α)) :
    List (String × α) :=
  (k, v) :: d.filter (fun p => decide (p.1 ≠ k))

/-- Lexicographic order on heap items `(f, station)`, matching Python tuple
comparison used by `heapq`. -/
def pqLe (a b : ℝ × String) : Prop :=
  a.1 < b.1 ∨ (a.1 = b.1 ∧ a.2 ≤ b.2)

/-- Extraction of the least `(f, station)` pair and the remaining heap
contents; `none` on an empty heap. -/
noncomputable def popMin : List (ℝ × String) → Option ((ℝ × String) × List (ℝ × String))
  | [] => none
  | x :: xs =>
    match popMin xs with
    | none => some (x, [])
    | some (m, rest) => if pqLe x m then some (x, xs) else some (m, x :: rest)

/-- The root key `pq[0][0]` of a nonempty heap. -/
noncomputable def pqTopKey (pq : List (ℝ × String)) : Option ℝ :=
  (popMin pq).map (fun p => p.1.1)

/-- Comparison `forward_pq[0][0] < backward_pq[0][0]` (only evaluated when
both queues are nonempty). -/
noncomputable def pqTopLt (p q : List (ℝ × String)) : Prop :=
  match pqTopKey p, pqTopKey q with
  | some a, some b => a < b
  | _, _ => False

/-- Minimum of two frontier top keys, `none` meaning `float("inf")`. -/
noncomputable def optMin : Option ℝ → Option ℝ → Option ℝ
  | some a, some b => some (min a b)
  | some a, none => some a
  | none, b => b

/-- The comparison `best_path_cost <= f_min` with `none` as infinity. -/
def bestLE : Option ℝ → Option ℝ → Prop
  | some x, some y => x ≤ y
  | some _, none => True
  | none, some _ => False
  | none, none => True

/-- The comparison `total_cost < best_path_cost` with `none` as infinity. -/
def ltBest (t : ℝ) : Option ℝ → Prop
  | none => True
  | some b => t < b

/-- A parent-map entry `(other_station, edge_mode, cost_of_edge, instant)`. -/
structure ParentRec where
  station : String
  edge_mode : String
  edge_cost : ℝ
  instant : Option ℝ

/-- The mutable search state of `bidirectional_a_star`. -/
structure BidiState where
  forward_g : List (String × ℝ)
  backward_g : List (String × ℝ)
  forward_time : List (String × Option ℝ)
  backward_time : List (String × Option ℝ)
  forward_parent : List (String × ParentRec)
  backward_parent : List (String × ParentRec)
  forward_pq : List (ℝ × String)
  backward_pq : List (ℝ × String)
  best_path_cost : Option ℝ
  meeting_station : Option String

/-- The staleness tolerance `1e-9` of the re-push filter. -/
noncomputable def epsStale : ℝ := 1 / 1000000000

/-- Embedding of the `check_meeting` closure (a_star.py lines 302-309). -/
noncomputable def check_meeting (station : String) (s : BidiState) : BidiState :=
  match s.forward_g.lookup station, s.backward_g.lookup station with
  | some gf, some gb =>
    let total := gf + gb
    if ltBest total s.best_path_cost then
      { s with best_path_cost := some total, meeting_station := some station }
    else s
  | _, _ => s

/-- Relaxation of one produced forward neighbour (a_star.py lines 331-345):
strict improvement updates `forward_g`, the parent, in time mode the instant,
pushes `(g + h, nbr)` and re-checks the meeting. -/
noncomputable def relaxStepForward (goal_set : List String) (cache : LatLonCache)
    (mode : String) (st : String) (gval : ℝ) (s : BidiState) (n : NbrOut) :
    BidiState :=
  let candidate := gval + n.cost
  let improves :=
    match s.forward_g.lookup n.code with
    | none => True
    | some old => candidate < old
  if improves then
    let s := { s with
      forward_g := dictInsert n.code candidate s.forward_g,
      forward_parent := dictInsert n.code
        ⟨st, n.edge_mode, n.cost, if mode = "time" then n.next_time else none⟩
        s.forward_parent }
    let s := if mode = "time" then
        { s with forward_time := dictInsert n.code n.next_time s.forward_time }
      else s
    let fval := candidate + heuristic_km n.code goal_set cache
    let s := { s with forward_pq := (fval, n.code) :: s.forward_pq }
    check_meeting n.code s
  else s

/-- Relaxation of one produced backward neighbour (a_star.py lines 365-377). -/
noncomputable def relaxStepBackward (start_set : List String) (cache : LatLonCache)
    (mode : String) (st : String) (gval : ℝ) (s : BidiState) (n : NbrOut) :
    BidiState :=
  let candidate := gval + n.cost
  let improves :=
    match s.backward_g.lookup n.code with
    | none => True
    | some old => candidate < old
  if improves then
    let s := { s with
      backward_g := dictInsert n.code candidate s.backward_g,
      backward_parent := dictInsert n.code
        ⟨st, n.edge_mode, n.cost, if mode = "time" then n.next_time else none⟩
        s.backward_parent }
    let s := if mode = "time" then
        { s with backward_time := dictInsert n.code n.next_time s.backward_time }
      else s
    let fval := candidate + heuristic_km n.code start_set cache
    let s := { s with backward_pq := (fval, n.code) :: s.backward_pq }
    check_meeting n.code s
  else s

/-- Embedding of the `expand_forward` closure (a_star.py lines 312-345): pop,
stale filters, meeting check, neighbour generation (which, per
`forward_neighbors`, raises), then relaxation of each neighbour. -/
noncomputable def expand_forward (store : TGStoreBehavior) (goal_set : List String)
    (cache : LatLonCache) (mode : String) (start_time : ℝ) (s : BidiState) :
    PyOutcome BidiState :=
  match popMin s.forward_pq with
  | none => .ret s
  | some ((fval, st), rest) =>
    let s := { s with forward_pq := rest }
    match s.forward_g.lookup st with
    | none => .ret s
    | some gval =>
      let hval := heuristic_km st goal_set cache
      if gval + hval < fval - epsStale then .ret s
      else
        let s := check_meeting st s
        let cur_time : Option ℝ :=
          if mode = "time" then (s.forward_time.lookup st).getD (some start_time)
          else none
        pyBind (forward_neighbors store st gval cur_time mode cache) fun nbrs =>
          .ret (nbrs.foldl (relaxStepForward goal_set cache mode st gval) s)

/-- Embedding of the `expand_backward` closure (a_star.py lines 347-377). -/
noncomputable def expand_backward (store : TGStoreBehavior) (start_set : List String)
    (cache : LatLonCache) (mode : String) (s : BidiState) : PyOutcome BidiState :=
  match popMin s.backward_pq with
  | none => .ret s
  | some ((fval, st), rest) =>
    let s := { s with backward_pq := rest }
    match s.backward_g.lookup st with
    | none => .ret s
    | some gval =>
      let hval := heuristic_km st start_set cache
      if gval + hval < fval - epsStale then .ret s
      else
        let s := check_meeting st s
        let cur_time : Option ℝ := (s.backward_time.lookup st).getD none
        pyBind (backward_neighbors store st gval cur_time mode cache) fun nbrs =>
          .ret (nbrs.foldl (relaxStepBackward start_set cache mode st gval) s)

/-- Seeding of one start station (a_star.py lines 270-276): `g = 0`, in time
mode the instant `start_time`, and a push of `(0 + h, station)`. -/
noncomputable def initForwardStep (goal_set : List String) (cache : LatLonCache)
    (mode : String) (start_time : ℝ) (s : BidiState) (st : String) : BidiState :=
  let s := { s with forward_g := dictInsert st 0 s.forward_g }
  let s := if mode = "time" then
      { s with forward_time := dictInsert st (some start_time) s.forward_time }
    else s
  { s with forward_pq := (0 + heuristic_km st goal_set cache, st) :: s.forward_pq }

/-- Seeding of one goal station (a_star.py lines 281-296): `g = 0`, in time
mode the "infinite future" instant `start_time + 48h` (and `None` in cost
mode), and a push of `(0 + h, station)`. -/
noncomputable def initBackwardStep (start_set : List String) (cache : LatLonCache)
    (mode : String) (start_time : ℝ) (s : BidiState) (gst : String) : BidiState :=
  let s := { s with backward_g := dictInsert gst 0 s.backward_g }
  let btv : Option ℝ := if mode = "time" then some (start_time + 172800) else none
  let s := { s with backward_time := dictInsert gst btv s.backward_time }
  { s with backward_pq := (0 + heuristic_km gst start_set cache, gst) :: s.backward_pq }

/-- Initialisation of the search state (a_star.py lines 252-296): every start
seeded forward with `g = 0` and `f = h`, every goal seeded backward. -/
noncomputable def initBidi (start_stations goal_stations : List String)
    (start_time : ℝ) (mode : String) (cache : LatLonCache) : BidiState :=
  let s0 : BidiState := ⟨[], [], [], [], [], [], [], [], none, none⟩
  let s1 := start_stations.foldl
    (initForwardStep goal_stations cache mode start_time) s0
  goal_stations.foldl (initBackwardStep start_stations cache mode start_time) s1

/-- One reconstructed path edge `(src, dst, edge_mode, cost, instant)`. -/
structure PathEdge where
  src : String
  dst : String
  edge_mode : String
  cost : ℝ
  instant : Option ℝ

/-- Forward half of `reconstruct_bidirectional_path`: chase forward parents
from the meeting station and reverse.  The fuel bounds the chase, matching
the Python `while` loop on any acyclic parent map. -/
def reconstructForward : Nat → String → List (String × ParentRec) → List PathEdge
  | 0, _, _ => []
  | fuel + 1, cur, parents =>
    match parents.lookup cur with
    | none => []
    | some p => reconstructForward fuel p.station parents ++
        [⟨p.station, cur, p.edge_mode, p.edge_cost, p.instant⟩]

/-- Backward half of `reconstruct_bidirectional_path`: chase backward parents
from the meeting station in natural order. -/
def reconstructBackward : Nat → String → List (String × ParentRec) → List PathEdge
  | 0, _, _ => []
  | fuel + 1, cur, parents =>
    match parents.lookup cur with
    | none => []
    | some p => ⟨cur, p.station, p.edge_mode, p.edge_cost, p.instant⟩ ::
        reconstructBackward fuel p.station parents

/-- Embedding of `reconstruct_bidirectional_path` (a_star.py lines 411-440). -/
def reconstruct_bidirectional_path (meeting : String)
    (forward_parent backward_parent : List (String × ParentRec)) : List PathEdge :=
  reconstructForward (forward_parent.length + 1) meeting forward_parent ++
    reconstructBackward (backward_parent.length + 1) meeting backward_parent

/-- The main loop of `bidirectional_a_star` (a_star.py lines 379-400),
parameterised by the two expansion closures and a fuel bound on the number of
iterations.  The loop body runs only while both queues are nonempty; inside,
the early-termination test compares `best_path_cost` with the smaller top
`f`, and the expansion choice replays the inner if/elif chain verbatim
(including its unreachable single-queue branches). -/
noncomputable def bidi_loop (eF eB : BidiState → PyOutcome BidiState) :
    Nat → BidiState → PyOutcome BidiState
  | 0, s => .ret s
  | fuel + 1, s =>
    if s.forward_pq ≠ [] ∧ s.backward_pq ≠ [] then
      if s.meeting_station ≠ none ∧
          bestLE s.best_path_cost
            (optMin (pqTopKey s.forward_pq) (pqTopKey s.backward_pq)) then
        .ret s
      else
        let step :=
          if s.forward_pq ≠ [] ∧ s.backward_pq ≠ [] then
            if pqTopLt s.forward_pq s.backward_pq then eF s else eB s
          else if s.forward_pq ≠ [] then eF s
          else if s.backward_pq ≠ [] then eB s
          else .ret s
        pyBind step (bidi_loop eF eB fuel)
    else .ret s

/-- Embedding of `bidirectional_a_star` (a_star.py lines 226-409): initialise
both frontiers, run the main loop, and on normal exit reconstruct from the
meeting station (an empty list when no meeting was found). -/
noncomputable def bidirectional_a_star (store : TGStoreBehavior)
    (start_stations goal_stations : List String) (start_time : ℝ)
    (mode : String) (cache : LatLonCache) (fuel : Nat) :
    PyOutcome (List PathEdge) :=
  let s0 := initBidi start_stations goal_stations start_time mode cache
  pyBind
    (bidi_loop (expand_forward store goal_stations cache mode start_time)
      (expand_backward store start_stations cache mode) fuel s0)
    fun s =>
      match s.meeting_station with
      | none => .ret []
      | some m => .ret (reconstruct_bidirectional_path m s.forward_parent s.backward_parent)

/-! ## Theorems

Helper lemmas first, then one theorem per claim (with counterexamples and
witnesses where required). -/

/-- Membership in the miss set is preserved by an insertion. -/
theorem mem_missInsert {x station : String} {miss : List String} (h : x ∈ miss) :
    x ∈ missInsert station miss := by
  unfold missInsert
  split
  · exact h
  · exact List.mem_cons_of_mem _ h

/-- C4.  The claim states that both an error response and an empty schedule
add the station to the miss set.  On the code, an empty schedule returns
`None` without touching the miss set: for station `s1`, not in the miss set,
a well-formed response with no error and an empty `schedule` array leaves the
miss set empty. -/
theorem c4_counterexample_empty_schedule :
    (station_schedule [] "s1" 100 (.ok (.parsed ⟨false, [], 0, none⟩)) .httpError).outcome
      = .ret none ∧
    "s1" ∉ (station_schedule [] "s1" 100 (.ok (.parsed ⟨false, [], 0, none⟩)) .httpError).miss := by
  decide

/-- C4 (amended).  For a station not in the miss set: a response indicating
an error returns `None` and adds the station to the persistent miss set,
while a response with an empty schedule returns `None` leaving the miss set
unchanged (no addition). -/
theorem c4_error_adds_miss_empty_does_not (miss : List String) (station : String)
    (limit : Nat) (resp2 : GetResult) (d : SchedData) (hnm : station ∉ miss) :
    (d.error = true →
      station_schedule miss station limit (.ok (.parsed d)) resp2 =
        ⟨.ret none, missInsert station miss, 1⟩ ∧
      station ∈ (station_schedule miss station limit (.ok (.parsed d)) resp2).miss) ∧
    (d.error = false → d.schedule = [] →
      station_schedule miss station limit (.ok (.parsed d)) resp2 =
        ⟨.ret none, miss, 1⟩) := by
  constructor
  · intro herr
    have hout : station_schedule miss station limit (.ok (.parsed d)) resp2 =
        ⟨.ret none, missInsert station miss, 1⟩ := by
      unfold station_schedule
      rw [if_neg hnm]
      simp [herr]
    refine ⟨hout, ?_⟩
    rw [hout]
    unfold missInsert
    split
    · exact absurd (by assumption) hnm
    · exact List.mem_cons_self _ _
  · intro herr hempty
    unfold station_schedule
    rw [if_neg hnm]
    simp [herr, hempty]

/-- Witness for `c4_error_adds_miss_empty_does_not` at a concrete error
response. -/
theorem c4_witness :
    station_schedule [] "s2" 100 (.ok (.parsed ⟨true, [⟨"u"⟩], 5, none⟩)) .httpError =
      ⟨.ret none, missInsert "s2" [], 1⟩ ∧
    "s2" ∈ (station_schedule [] "s2" 100 (.ok (.parsed ⟨true, [⟨"u"⟩], 5, none⟩)) .httpError).miss :=
  (c4_error_adds_miss_empty_does_not [] "s2" 100 .httpError ⟨true, [⟨"u"⟩], 5, none⟩
    (by decide)).1 rfl

/-- C5.  The claim states that a malformed JSON body makes the client return
`None` and add the station to the miss set.  On the code, `json.loads` runs
outside the `try` block, so the decode error propagates: the outcome is a
raised exception, not `None`, and the miss set is untouched. -/
theorem c5_counterexample_malformed_raises :
    (station_schedule [] "s3" 100 (.ok .malformed) .httpError).outcome =
      .raised .jsonDecodeError ∧
    (station_schedule [] "s3" 100 (.ok .malformed) .httpError).outcome ≠ .ret none ∧
    "s3" ∉ (station_schedule [] "s3" 100 (.ok .malformed) .httpError).miss := by
  decide

/-- C5 (amended).  For a station not in the miss set: a raised
`requests.HTTPError` is caught, returning `None`, adding the station to the
miss set, and issuing no retry (exactly one HTTP request); but a malformed
JSON body, or a transport exception other than `HTTPError` (connection
error/timeout), propagates uncaught, with no `None` result and no miss-set
addition. -/
theorem c5_http_error_caught_malformed_raises (miss : List String)
    (station : String) (limit : Nat) (resp2 : GetResult) (hnm : station ∉ miss) :
    (station_schedule miss station limit .httpError resp2 =
      ⟨.ret none, missInsert station miss, 1⟩ ∧
      station ∈ (station_schedule miss station limit .httpError resp2).miss) ∧
    station_schedule miss station limit (.ok .malformed) resp2 =
      ⟨.raised .jsonDecodeError, miss, 1⟩ ∧
    station_schedule miss station limit .connError resp2 =
      ⟨.raised .connectionError, miss, 1⟩ := by
  have hout : station_schedule miss station limit .httpError resp2 =
      ⟨.ret none, missInsert station miss, 1⟩ := by
    unfold station_schedule
    rw [if_neg hnm]
  refine ⟨⟨hout, ?_⟩, ?_, ?_⟩
  · rw [hout]
    unfold missInsert
    split
    · exact absurd (by assumption) hnm
    · exact List.mem_cons_self _ _
  · unfold station_schedule
    rw [if_neg hnm]
  · unfold station_schedule
    rw [if_neg hnm]

/-- Witness for `c5_http_error_caught_malformed_raises` at station `s4`. -/
theorem c5_witness :
    station_schedule [] "s4" 100 .httpError .httpError =
      ⟨.ret none, missInsert "s4" [], 1⟩ ∧
    "s4" ∈ (station_schedule [] "s4" 100 .httpError .httpError).miss :=
  (c5_http_error_caught_malformed_raises [] "s4" 100 .httpError (by decide)).1

/-- Fold lemma for `bulk_station_schedule`: the loop is a map over the
completion list. -/
theorem bulk_station_schedule_go {α : Type}
    (outcomes : List (WorkerOutcome (Option α))) (acc : List (Option α)) :
    outcomes.foldl
      (fun acc o =>
        match o with
        | .completed r => acc ++ [r]
        | .raised => acc ++ [none])
      acc =
    acc ++ outcomes.map (fun o =>
      match o with
      | .completed r => r
      | .raised => none) := by
  induction outcomes generalizing acc with
  | nil => simp
  | cons o rest ih =>
    cases o with
    | completed r => simp [ih]
    | raised => simp [ih]

/-- Fold lemma for `bulk_thread_stops`: the loop keeps exactly the completed
futures. -/
theorem bulk_thread_stops_go {α : Type}
    (outcomes : List (WorkerOutcome (Option α))) (acc : List (Option α)) :
    outcomes.foldl
      (fun acc o =>
        match o with
        | .completed r => acc ++ [r]
        | .raised => acc)
      acc =
    acc ++ outcomes.filterMap (fun o =>
      match o with
      | .completed r => some r
      | .raised => none) := by
  induction outcomes generalizing acc with
  | nil => simp
  | cons o rest ih =>
    cases o with
    | completed r => simp [ih]
    | raised => simp [ih]

/-- C6.  The claim states that both bulk fetches return one entry per query
with `null` for raised queries.  On the code, `bulk_thread_stops` appends
nothing when a worker raises: a single raising query yields an empty result
list instead of `[null]`. -/
theorem c6_counterexample_thread_stops_drops :
    bulk_thread_stops ([.raised] : List (WorkerOutcome (Option Nat))) = [] ∧
    (bulk_thread_stops ([.raised] : List (WorkerOutcome (Option Nat)))).length ≠ 1 := by
  constructor
  · rfl
  · decide

/-- C6 (amended).  `bulk_station_schedule` returns exactly one entry per
completed future in completion order, raised futures contributing `null`
(hence N entries for N queries); `bulk_thread_stops` instead keeps only the
completed futures, dropping every raised query from the result. -/
theorem c6_bulk_result_shapes {α : Type}
    (outcomes : List (WorkerOutcome (Option α))) :
    bulk_station_schedule outcomes =
      outcomes.map (fun o =>
        match o with
        | .completed r => r
        | .raised => none) ∧
    (bulk_station_schedule outcomes).length = outcomes.length ∧
    bulk_thread_stops outcomes =
      outcomes.filterMap (fun o =>
        match o with
        | .completed r => some r
        | .raised => none) := by
  refine ⟨?_, ?_, ?_⟩
  · simpa using bulk_station_schedule_go outcomes []
  · have h := bulk_station_schedule_go outcomes ([] : List (Option α))
    unfold bulk_station_schedule
    rw [h]
    simp
  · simpa using bulk_thread_stops_go outcomes []

/-- C8.  The claim states at most one WALKABLE edge per ordered pair and
overwrite of `distance_km` on re-upsert.  On the code, the bulk MERGE pattern
includes `distance_km`, so re-upserting `(a, b)` with a different distance
creates a second edge: after upserting distance 1 then distance 2, the store
holds two WALKABLE edges from `a` to `b`. -/
theorem c8_counterexample_duplicate_pair :
    ((create_walkable_edges_bulk
        (create_walkable_edges_bulk ⟨["a", "b"], []⟩ [⟨"a", "b", 1⟩])
        [⟨"a", "b", 2⟩]).walks.filter
      (fun r => decide (r.from_code = "a" ∧ r.to_code = "b"))).length = 2 := by
  decide

/-- C8 (amended).  The bulk walk-edge upsert merges on the full pattern
`(from, to, distance_km)`: re-upserting an existing triple is a no-op, while
re-upserting an existing pair with a different distance appends a second
WALKABLE edge (both distances end up in the store).  The single-edge upsert
`create_walkable_edge` merges on `(from, to)` but sets `distance_km` only ON
CREATE, so it never overwrites an existing edge's distance. -/
theorem c8_merge_on_triple_no_overwrite (g : GraphStore) (c1 c2 : String)
    (d d2 : ℚ) (hmem : (⟨c1, c2, d⟩ : WalkRel) ∈ g.walks) :
    create_walkable_edges_bulk g [⟨c1, c2, d⟩] = g ∧
    (c1 ∈ g.stations → c2 ∈ g.stations → (⟨c1, c2, d2⟩ : WalkRel) ∉ g.walks →
      (create_walkable_edges_bulk g [⟨c1, c2, d2⟩]).walks = g.walks ++ [⟨c1, c2, d2⟩] ∧
      (⟨c1, c2, d⟩ : WalkRel) ∈ (create_walkable_edges_bulk g [⟨c1, c2, d2⟩]).walks ∧
      (⟨c1, c2, d2⟩ : WalkRel) ∈ (create_walkable_edges_bulk g [⟨c1, c2, d2⟩]).walks) ∧
    create_walkable_edge g c1 c2 d2 = g := by
  have hany : g.walks.any
      (fun r => decide (r.from_code = c1 ∧ r.to_code = c2 ∧ r.distance_km = d)) = true := by
    rw [List.any_eq_true]
    exact ⟨⟨c1, c2, d⟩, hmem, by simp⟩
  have hanypair : g.walks.any
      (fun r => decide (r.from_code = c1 ∧ r.to_code = c2)) = true := by
    rw [List.any_eq_true]
    exact ⟨⟨c1, c2, d⟩, hmem, by simp⟩
  refine ⟨?_, ?_, ?_⟩
  · unfold create_walkable_edges_bulk mergeWalkableBulkOne
    simp only [List.foldl]
    split <;> simp_all
  · intro h1 h2 hnot
    have hnoany : g.walks.any
        (fun r => decide (r.from_code = c1 ∧ r.to_code = c2 ∧ r.distance_km = d2)) = false := by
      rw [Bool.eq_false_iff]
      intro hcon
      rw [List.any_eq_true] at hcon
      obtain ⟨r, hr, hprop⟩ := hcon
      simp only [decide_eq_true_eq] at hprop
      obtain ⟨e1, e2, e3⟩ := hprop
      exact hnot (by
        have : r = ⟨c1, c2, d2⟩ := by
          cases r
          simp_all
        rwa [this] at hr)
    have hres : (create_walkable_edges_bulk g [⟨c1, c2, d2⟩]).walks =
        g.walks ++ [⟨c1, c2, d2⟩] := by
      unfold create_walkable_edges_bulk mergeWalkableBulkOne
      simp only [List.foldl]
      rw [if_pos ⟨h1, h2⟩, hnoany]
      simp
    refine ⟨hres, ?_, ?_⟩
    · rw [hres]; exact List.mem_append_left _ hmem
    · rw [hres]; exact List.mem_append_right _ (List.mem_cons_self _ _)
  · unfold create_walkable_edge
    split <;> simp_all

/-- Witness for `c8_merge_on_triple_no_overwrite` on a two-station store
holding the edge `(a, b, 1)`. -/
theorem c8_witness :
    create_walkable_edges_bulk ⟨["a", "b"], [⟨"a", "b", 1⟩]⟩ [⟨"a", "b", 1⟩] =
      ⟨["a", "b"], [⟨"a", "b", 1⟩]⟩ ∧
    create_walkable_edge ⟨["a", "b"], [⟨"a", "b", 1⟩]⟩ "a" "b" 2 =
      ⟨["a", "b"], [⟨"a", "b", 1⟩]⟩ :=
  ⟨(c8_merge_on_triple_no_overwrite ⟨["a", "b"], [⟨"a", "b", 1⟩]⟩ "a" "b" 1 2
      (by decide)).1,
   (c8_merge_on_triple_no_overwrite ⟨["a", "b"], [⟨"a", "b", 1⟩]⟩ "a" "b" 1 2
      (by decide)).2.2⟩

/-- C9.  A station in the miss set short-circuits `station_schedule` to
`None` with zero HTTP requests and an unchanged miss set, and every call
leaves the previous miss set contained in the new one (the set only grows). -/
theorem c9_miss_suppression_and_growth (miss : List String) (station : String)
    (limit : Nat) (resp1 resp2 : GetResult) :
    (station ∈ miss →
      station_schedule miss station limit resp1 resp2 = ⟨.ret none, miss, 0⟩) ∧
    ∀ x ∈ miss, x ∈ (station_schedule miss station limit resp1 resp2).miss := by
  constructor
  · intro h
    unfold station_schedule
    rw [if_pos h]
  · intro x hx
    unfold station_schedule
    split
    · exact hx
    · cases resp1 with
      | httpError => exact mem_missInsert hx
      | connError => exact hx
      | ok b =>
        cases b with
        | malformed => exact hx
        | parsed d =>
          dsimp only
          split
          · exact mem_missInsert hx
          · split
            · exact hx
            · split
              · split <;> exact hx
              · exact hx

/-- Witness for `c9_miss_suppression_and_growth`: a station already in the
miss set is not fetched again and the set is preserved. -/
theorem c9_witness :
    station_schedule ["s5"] "s5" 100 .connError .connError = ⟨.ret none, ["s5"], 0⟩ ∧
    "s5" ∈ (station_schedule ["s5"] "s5" 100 .connError .connError).miss :=
  ⟨(c9_miss_suppression_and_growth ["s5"] "s5" 100 .connError .connError).1
      (by decide),
   (c9_miss_suppression_and_growth ["s5"] "s5" 100 .connError .connError).2 "s5"
      (by decide)⟩

/-- Membership in the accumulated station-code list of the thread fold: a
code is seen iff it comes from the accumulator or from some non-null thread
result. -/
theorem mem_accumulateThreads_snd (c : String) (tr : List (Option ThreadJson)) :
    ∀ acc : List TransportEdgeInput × List String,
      (c ∈ (tr.foldl accumulateThreads acc).2 ↔
        c ∈ acc.2 ∨ ∃ t, some t ∈ tr ∧ c ∈ (parse_thread t).2) := by
  induction tr with
  | nil => intro acc; simp
  | cons tj rest ih =>
    intro acc
    cases tj with
    | none =>
      simp only [List.foldl_cons, accumulateThreads, ih]
      constructor
      · rintro (h | ⟨t, ht, hc⟩)
        · exact Or.inl h
        · exact Or.inr ⟨t, List.mem_cons_of_mem _ ht, hc⟩
      · rintro (h | ⟨t, ht, hc⟩)
        · exact Or.inl h
        · rcases List.mem_cons.mp ht with heq | hmem
          · exact absurd heq (by simp)
          · exact Or.inr ⟨t, hmem, hc⟩
    | some t0 =>
      simp only [List.foldl_cons, accumulateThreads, ih]
      constructor
      · rintro (h | ⟨t, ht, hc⟩)
        · rcases List.mem_append.mp h with h | h
          · exact Or.inl h
          · exact Or.inr ⟨t0, List.mem_cons_self _ _, h⟩
        · exact Or.inr ⟨t, List.mem_cons_of_mem _ ht, hc⟩
      · rintro (h | ⟨t, ht, hc⟩)
        · exact Or.inl (List.mem_append_left _ h)
        · rcases List.mem_cons.mp ht with heq | hmem
          · obtain rfl : t = t0 := by injection heq
            exact Or.inl (List.mem_append_right _ hc)
          · exact Or.inr ⟨t, hmem, hc⟩

/-- The `fetch_station_info` fold only appends. -/
theorem mem_fetchInfo_foldl_of_mem_acc (ids : List String)
    (l : List CatStation) :
    ∀ acc : List StationInfo, ∀ x ∈ acc, x ∈ l.foldl (fetchInfoStep ids) acc := by
  induction l with
  | nil => intro acc x hx; simpa using hx
  | cons a l ih =>
    intro acc x hx
    simp only [List.foldl_cons]
    refine ih _ x ?_
    rcases hy : a.codes.yandex_code with _ | code
    · simp only [fetchInfoStep, hy]
      exact hx
    · simp only [fetchInfoStep, hy]
      split
      · exact List.mem_append_left _ hx
      · exact hx

/-- A catalogue station whose code is in the requested set contributes its
station info to the `fetch_station_info` fold. -/
theorem mem_fetchInfo_foldl (ids : List String) (c : String)
    (l : List CatStation) :
    ∀ acc : List StationInfo, ∀ st ∈ l, st.codes.yandex_code = some c →
      c ∈ ids → mkStationInfo st ∈ l.foldl (fetchInfoStep ids) acc := by
  induction l with
  | nil => intro acc st hst; simp at hst
  | cons a l ih =>
    intro acc st hst hcode hin
    simp only [List.foldl_cons]
    rcases List.mem_cons.mp hst with rfl | hmem
    · refine mem_fetchInfo_foldl_of_mem_acc ids l _ _ ?_
      simp only [fetchInfoStep, hcode, if_pos hin]
      exact List.mem_append_right _ (List.mem_cons_self _ _)
    · exact ih _ st hmem hcode hin

/-- C10.  The claim states that every station code seen in the parsed threads
is upserted.  On the code, `fetch_station_info` silently skips codes absent
from the station catalogue: for a thread visiting `s1` and `sX` with only
`s1` in the catalogue, the code `sX` is seen but never part of any station
upsert of the call. -/
theorem c10_counterexample_unknown_code_skipped :
    "sX" ∈ (parse_thread ⟨"T", [⟨"s1", 0, 1⟩, ⟨"sX", 2, 3⟩]⟩).2 ∧
    some "sX" ∉ upsertedStationCodes
      (populate_transport_edges (some ⟨false, [⟨"T"⟩], 0, none⟩)
        [some ⟨"T", [⟨"s1", 0, 1⟩, ⟨"sX", 2, 3⟩]⟩]
        ⟨[⟨[⟨[⟨none, none,
          [⟨none, ⟨some "s1", none⟩, none, none, none, none⟩]⟩]⟩]⟩]⟩) := by
  constructor
  · decide
  · decide

/-- C10 (amended).  Within one `populate_transport_edges(schedule)` call on a
truthy schedule, the write trace is exactly one station upsert batch followed
by one transport-edge batch (so all station upserts happen before any edge
write), and every station code seen in the parsed threads **that is present
in the station catalogue** is part of the station batch; codes absent from
the catalogue are silently skipped.  A falsy schedule produces no writes. -/
theorem c10_stations_before_edges_catalogue_only (sj : SchedData)
    (tr : List (Option ThreadJson)) (cat : StationsData) (th : ThreadJson)
    (c : String) (st : CatStation)
    (htr : some th ∈ tr) (hc : c ∈ (parse_thread th).2)
    (hst : st ∈ catalogueStations cat) (hcode : st.codes.yandex_code = some c) :
    populate_transport_edges none tr cat = [] ∧
    ∃ infos edges,
      populate_transport_edges (some sj) tr cat =
        [.upsertStations infos, .upsertTransportEdges edges] ∧
      mkStationInfo st ∈ infos ∧
      some c ∈ upsertedStationCodes [.upsertStations infos] := by
  refine ⟨rfl, fetch_station_info cat (tr.foldl accumulateThreads ([], [])).2,
    (tr.foldl accumulateThreads ([], [])).1, rfl, ?_, ?_⟩
  · have hseen : c ∈ (tr.foldl accumulateThreads ([], [])).2 :=
      (mem_accumulateThreads_snd c tr ([], [])).mpr (Or.inr ⟨th, htr, hc⟩)
    exact mem_fetchInfo_foldl _ c (catalogueStations cat) [] st hst hcode hseen
  · have hseen : c ∈ (tr.foldl accumulateThreads ([], [])).2 :=
      (mem_accumulateThreads_snd c tr ([], [])).mpr (Or.inr ⟨th, htr, hc⟩)
    have hmem := mem_fetchInfo_foldl _ c (catalogueStations cat) [] st hst hcode hseen
    unfold upsertedStationCodes
    simp only [List.flatMap_cons, List.flatMap_nil, List.append_nil]
    exact List.mem_map.mpr ⟨mkStationInfo st, hmem, hcode⟩

/-- Witness for `c10_stations_before_edges_catalogue_only` at a one-station
catalogue and a one-thread result. -/
theorem c10_witness :
    populate_transport_edges none
      [some ⟨"T", [⟨"s1", 0, 1⟩, ⟨"sX", 2, 3⟩]⟩]
      ⟨[⟨[⟨[⟨none, none,
        [⟨none, ⟨some "s1", none⟩, none, none, none, none⟩]⟩]⟩]⟩]⟩ = [] ∧
    ∃ infos edges,
      populate_transport_edges (some ⟨false, [⟨"T"⟩], 0, none⟩)
        [some ⟨"T", [⟨"s1", 0, 1⟩, ⟨"sX", 2, 3⟩]⟩]
        ⟨[⟨[⟨[⟨none, none,
          [⟨none, ⟨some "s1", none⟩, none, none, none, none⟩]⟩]⟩]⟩]⟩ =
        [.upsertStations infos, .upsertTransportEdges edges] ∧
      mkStationInfo ⟨none, ⟨some "s1", none⟩, none, none, none, none⟩ ∈ infos ∧
      some "s1" ∈ upsertedStationCodes [.upsertStations infos] :=
  c10_stations_before_edges_catalogue_only ⟨false, [⟨"T"⟩], 0, none⟩
    [some ⟨"T", [⟨"s1", 0, 1⟩, ⟨"sX", 2, 3⟩]⟩]
    ⟨[⟨[⟨[⟨none, none,
      [⟨none, ⟨some "s1", none⟩, none, none, none, none⟩]⟩]⟩]⟩]⟩
    ⟨"T", [⟨"s1", 0, 1⟩, ⟨"sX", 2, 3⟩]⟩ "s1"
    ⟨none, ⟨some "s1", none⟩, none, none, none, none⟩
    (List.mem_singleton.mpr rfl) (by decide)
    (List.mem_singleton.mpr rfl) rfl

/-- The haversine distance between a point and itself is zero, so the
non-strict threshold test accepts it exactly when the threshold is
non-negative. -/
theorem are_stations_within_distance_same_point (lat lon t : ℝ) :
    are_stations_within_distance lat lon lat lon t = ((0 : ℝ) ≤ t, (0 : ℝ)) := by
  unfold are_stations_within_distance
  simp [sub_self, Real.sqrt_zero, Real.arcsin_zero]

/-- Membership characterisation of the station loop of `walkable_stations`. -/
theorem mem_walkOverStations (initInfo : StationInfo) (threshold : ℝ)
    (x : StationInfo) :
    ∀ l : List CatStation,
      (x ∈ (walkOverStations initInfo threshold l).1 ↔
        ∃ st ∈ l, x = mkStationInfo st ∧ truthyCoord st.latitude ∧
          truthyCoord st.longitude ∧
          initInfo.yandex_code ≠ st.codes.yandex_code ∧
          (are_stations_within_distance (initInfo.latitude.getD 0)
            (initInfo.longitude.getD 0) (st.latitude.getD 0)
            (st.longitude.getD 0) threshold).1) := by
  intro l
  induction l with
  | nil => simp [walkOverStations]
  | cons st rest ih =>
    simp only [walkOverStations]
    split_ifs with h1 h2 h3
    · rw [ih]
      constructor
      · rintro ⟨st2, hmem, hP⟩
        exact ⟨st2, List.mem_cons_of_mem _ hmem, hP⟩
      · rintro ⟨st2, hmem, hP⟩
        rcases List.mem_cons.mp hmem with rfl | hmem2
        · rcases h1 with h | h
          · exact absurd hP.2.1 h
          · exact absurd hP.2.2.1 h
        · exact ⟨st2, hmem2, hP⟩
    · rw [ih]
      constructor
      · rintro ⟨st2, hmem, hP⟩
        exact ⟨st2, List.mem_cons_of_mem _ hmem, hP⟩
      · rintro ⟨st2, hmem, hP⟩
        rcases List.mem_cons.mp hmem with rfl | hmem2
        · exact absurd h2 hP.2.2.2.1
        · exact ⟨st2, hmem2, hP⟩
    · rw [List.mem_cons, ih]
      push_neg at h1
      constructor
      · rintro (rfl | ⟨st2, hmem, hP⟩)
        · exact ⟨st, List.mem_cons_self _ _, rfl, h1.1, h1.2, h2, h3⟩
        · exact ⟨st2, List.mem_cons_of_mem _ hmem, hP⟩
      · rintro ⟨st2, hmem, hP⟩
        rcases List.mem_cons.mp hmem with rfl | hmem2
        · exact Or.inl hP.1
        · exact Or.inr ⟨st2, hmem2, hP⟩
    · rw [ih]
      constructor
      · rintro ⟨st2, hmem, hP⟩
        exact ⟨st2, List.mem_cons_of_mem _ hmem, hP⟩
      · rintro ⟨st2, hmem, hP⟩
        rcases List.mem_cons.mp hmem with rfl | hmem2
        · exact absurd hP.2.2.2.2 h3
        · exact ⟨st2, hmem2, hP⟩

/-- Membership characterisation of the settlement loop of
`walkable_stations`. -/
theorem mem_walkOverSettlements (initInfo : StationInfo) (threshold : ℝ)
    (x : StationInfo) :
    ∀ l : List CatSettlement,
      (x ∈ (walkOverSettlements initInfo threshold l).1 ↔
        ∃ st ∈ l.flatMap (fun s => s.stations), x = mkStationInfo st ∧
          truthyCoord st.latitude ∧ truthyCoord st.longitude ∧
          initInfo.yandex_code ≠ st.codes.yandex_code ∧
          (are_stations_within_distance (initInfo.latitude.getD 0)
            (initInfo.longitude.getD 0) (st.latitude.getD 0)
            (st.longitude.getD 0) threshold).1) := by
  intro l
  induction l with
  | nil => simp [walkOverSettlements]
  | cons s rest ih =>
    simp only [walkOverSettlements, List.flatMap_cons]
    rw [List.mem_append, mem_walkOverStations, ih]
    constructor
    · rintro (⟨st2, hmem, hP⟩ | ⟨st2, hmem, hP⟩)
      · exact ⟨st2, List.mem_append_left _ hmem, hP⟩
      · exact ⟨st2, List.mem_append_right _ hmem, hP⟩
    · rintro ⟨st2, hmem, hP⟩
      rcases List.mem_append.mp hmem with hmem2 | hmem2
      · exact Or.inl ⟨st2, hmem2, hP⟩
      · exact Or.inr ⟨st2, hmem2, hP⟩

/-- Membership characterisation of the region loop of `walkable_stations`. -/
theorem mem_walkOverRegions (initInfo : StationInfo) (threshold : ℝ)
    (x : StationInfo) :
    ∀ l : List CatRegion,
      (x ∈ (walkOverRegions initInfo threshold l).1 ↔
        ∃ st ∈ l.flatMap (fun r => r.settlements.flatMap fun s => s.stations),
          x = mkStationInfo st ∧
          truthyCoord st.latitude ∧ truthyCoord st.longitude ∧
          initInfo.yandex_code ≠ st.codes.yandex_code ∧
          (are_stations_within_distance (initInfo.latitude.getD 0)
            (initInfo.longitude.getD 0) (st.latitude.getD 0)
            (st.longitude.getD 0) threshold).1) := by
  intro l
  induction l with
  | nil => simp [walkOverRegions]
  | cons r rest ih =>
    simp only [walkOverRegions, List.flatMap_cons]
    rw [List.mem_append, mem_walkOverSettlements, ih]
    constructor
    · rintro (⟨st2, hmem, hP⟩ | ⟨st2, hmem, hP⟩)
      · exact ⟨st2, List.mem_append_left _ hmem, hP⟩
      · exact ⟨st2, List.mem_append_right _ hmem, hP⟩
    · rintro ⟨st2, hmem, hP⟩
      rcases List.mem_append.mp hmem with hmem2 | hmem2
      · exact Or.inl ⟨st2, hmem2, hP⟩
      · exact Or.inr ⟨st2, hmem2, hP⟩

/-- Membership characterisation of the country loop of `walkable_stations`. -/
theorem mem_walkOverCountries (initInfo : StationInfo) (threshold : ℝ)
    (x : StationInfo) :
    ∀ l : List CatCountry,
      (x ∈ (walkOverCountries initInfo threshold l).1 ↔
        ∃ st ∈ l.flatMap (fun c => c.regions.flatMap fun r =>
            r.settlements.flatMap fun s => s.stations),
          x = mkStationInfo st ∧
          truthyCoord st.latitude ∧ truthyCoord st.longitude ∧
          initInfo.yandex_code ≠ st.codes.yandex_code ∧
          (are_stations_within_distance (initInfo.latitude.getD 0)
            (initInfo.longitude.getD 0) (st.latitude.getD 0)
            (st.longitude.getD 0) threshold).1) := by
  intro l
  induction l with
  | nil => simp [walkOverCountries]
  | cons c rest ih =>
    simp only [walkOverCountries, List.flatMap_cons]
    rw [List.mem_append, mem_walkOverRegions, ih]
    constructor
    · rintro (⟨st2, hmem, hP⟩ | ⟨st2, hmem, hP⟩)
      · exact ⟨st2, List.mem_append_left _ hmem, hP⟩
      · exact ⟨st2, List.mem_append_right _ hmem, hP⟩
    · rintro ⟨st2, hmem, hP⟩
      rcases List.mem_append.mp hmem with hmem2 | hmem2
      · exact Or.inl ⟨st2, hmem2, hP⟩
      · exact Or.inr ⟨st2, hmem2, hP⟩

/-- C7.  The claim states that `walkable_stations` returns exactly the
stations strictly within the radius.  On the code, the comparison is
non-strict (`distance <= threshold_km`): querying with radius 0 from a
station at (1, 1) returns a distinct candidate at exactly the same
coordinates, whose distance 0 is not strictly below the radius. -/
theorem c7_counterexample_nonstrict_radius :
    (walkable_stations ⟨none, some "s0", none, some 1, some 1, none, none⟩
      ⟨[⟨[⟨[⟨none, none,
        [⟨none, ⟨some "s1", none⟩, some 1, some 1, none, none⟩]⟩]⟩]⟩]⟩ 0).1 =
      [mkStationInfo ⟨none, ⟨some "s1", none⟩, some 1, some 1, none, none⟩] ∧
    ¬ ((are_stations_within_distance 1 1 1 1 0).2 < 0) := by
  constructor
  · have ht : truthyCoord (some (1 : ℝ)) := one_ne_zero
    unfold walkable_stations
    rw [if_neg (by
      push_neg
      exact ⟨ht, ht⟩)]
    simp only [walkOverCountries, walkOverRegions, walkOverSettlements,
      walkOverStations]
    rw [if_neg (by
      push_neg
      exact ⟨ht, ht⟩)]
    rw [if_neg (by simp)]
    simp only [Option.getD_some]
    rw [if_pos (by simp [are_stations_within_distance_same_point])]
    simp
  · rw [are_stations_within_distance_same_point]
    exact lt_irrefl 0

/-- C7 (amended).  `walkable_stations` returns exactly the catalogue
stations whose great-circle distance from the queried station is less than
**or equal to** the radius, excluding the queried station itself (by yandex
code) and every candidate whose latitude or longitude is missing or zero
(Python falsiness); if the queried station's own latitude or longitude is
missing or zero, the result is empty. -/
theorem c7_walkable_stations_characterization (initInfo : StationInfo)
    (d : StationsData) (threshold : ℝ) (x : StationInfo) :
    x ∈ (walkable_stations initInfo d threshold).1 ↔
      truthyCoord initInfo.longitude ∧ truthyCoord initInfo.latitude ∧
      ∃ st ∈ catalogueStations d, x = mkStationInfo st ∧
        truthyCoord st.latitude ∧ truthyCoord st.longitude ∧
        initInfo.yandex_code ≠ st.codes.yandex_code ∧
        (are_stations_within_distance (initInfo.latitude.getD 0)
          (initInfo.longitude.getD 0) (st.latitude.getD 0)
          (st.longitude.getD 0) threshold).1 := by
  unfold walkable_stations
  split_ifs with h
  · simp only [List.not_mem_nil, false_iff]
    rintro ⟨hlon, hlat, -⟩
    rcases h with h | h
    · exact h hlon
    · exact h hlat
  · push_neg at h
    rw [mem_walkOverCountries]
    constructor
    · rintro ⟨st, hmem, hP⟩
      exact ⟨h.1, h.2, st, hmem, hP⟩
    · rintro ⟨-, -, st, hmem, hP⟩
      exact ⟨st, hmem, hP⟩

/-- C3.  Time-mode relaxation formulas.  Forward transport: cost
`max(0, dep - now) + (arr - dep)` and new instant `arr`.  Backward transport:
cost `arr - dep` and new instant `dep`.  A walk edge read back from the store
with distance `dist_km` carries `travel_sec = dist_km * 720`; relaxing it
costs that many seconds and moves the instant forward (respectively backward)
by them. -/
theorem c3_time_mode_relaxation (now dep arr : ℝ) (uid nbr st rcode : String)
    (cv dist trav d : ℝ) (cache : LatLonCache) :
    relax_forward_transport "time" (some now) st cache
        ⟨nbr, cv, "transport", ⟨uid, some dep, some arr⟩, dist, trav⟩ =
      .ret (some ⟨nbr, max 0 (dep - now) + (arr - dep), some arr, "transport",
        estimate_edge_distance_km st nbr cache⟩) ∧
    relax_backward_transport "time" (some now) st cache
        ⟨nbr, cv, "transport", ⟨uid, some dep, some arr⟩, dist, trav⟩ =
      .ret (some ⟨nbr, arr - dep, some dep, "transport",
        estimate_edge_distance_km nbr st cache⟩) ∧
    get_neighbors [⟨false, rcode, some d, none, none, none⟩] =
      [⟨rcode, d, "walk", ⟨"", none, none⟩, d, d * WALK_SPEED_SEC_PER_KM⟩] ∧
    relax_forward_walk "time" (some now)
        ⟨rcode, d, "walk", ⟨"", none, none⟩, d, d * WALK_SPEED_SEC_PER_KM⟩ =
      .ret (some ⟨rcode, d * WALK_SPEED_SEC_PER_KM,
        some (now + d * WALK_SPEED_SEC_PER_KM), "walk", d⟩) ∧
    relax_backward_walk "time" (some now)
        ⟨rcode, d, "walk", ⟨"", none, none⟩, d, d * WALK_SPEED_SEC_PER_KM⟩ =
      .ret (some ⟨rcode, d * WALK_SPEED_SEC_PER_KM,
        some (now - d * WALK_SPEED_SEC_PER_KM), "walk", d⟩) := by
  refine ⟨?_, ?_, ?_, ?_, ?_⟩
  · unfold relax_forward_transport
    rw [if_neg (by simp), if_pos rfl]
    have hwait : (if now < dep then dep - now else 0) = max 0 (dep - now) := by
      rcases lt_or_le now dep with h | h
      · rw [if_pos h, max_eq_right (le_of_lt (sub_pos.mpr h))]
      · rw [if_neg (not_lt.mpr h), max_eq_left (sub_nonpos.mpr h)]
    simp only [hwait]
  · unfold relax_backward_transport
    rw [if_neg (by simp), if_pos rfl]
  · unfold get_neighbors
    simp [WALK_SPEED_SEC_PER_KM]
  · unfold relax_forward_walk
    rw [if_neg (by simp), if_pos rfl]
  · unfold relax_backward_walk
    rw [if_neg (by simp), if_pos rfl]

/-- C2.  The claim states that when exactly one priority queue is empty the
other queue is still expanded.  On the code, the `while` condition requires
both queues to be nonempty, so in a state whose forward queue holds one entry
and whose backward queue is empty the loop exits immediately, returning the
state unchanged: the supplied expansion (which would have produced a visibly
different outcome) is never invoked. -/
theorem c2_counterexample_one_empty_queue_stops :
    bidi_loop (fun _ => .raised .typeError) (fun _ => .raised .typeError) 1
      ⟨[], [], [], [], [], [], [(0, "a")], [], none, none⟩ =
      .ret ⟨[], [], [], [], [], [], [(0, "a")], [], none, none⟩ ∧
    (fun _ => PyOutcome.raised PyErr.typeError : BidiState → PyOutcome BidiState)
      ⟨[], [], [], [], [], [], [(0, "a")], [], none, none⟩ ≠
      .ret ⟨[], [], [], [], [], [], [(0, "a")], [], none, none⟩ := by
  constructor
  · unfold bidi_loop
    rw [if_neg (by simp)]
  · simp

/-- C2 (amended).  The main loop runs only while both priority queues are
nonempty: if either queue is empty it stops immediately without expanding the
other queue (the expand-the-other branches of the body are unreachable);
while both are nonempty, it stops as soon as a meeting station exists and
`best_cost <= min(top(forward), top(backward))`, and otherwise performs one
expansion of the queue with the strictly smaller top `f` (backward on ties)
before continuing. -/
theorem c2_loop_runs_only_with_both_queues (eF eB : BidiState → PyOutcome BidiState)
    (s : BidiState) (n : Nat) :
    ((s.forward_pq = [] ∨ s.backward_pq = []) →
      ∀ m, bidi_loop eF eB m s = .ret s) ∧
    (s.forward_pq ≠ [] → s.backward_pq ≠ [] → s.meeting_station ≠ none →
      bestLE s.best_path_cost
        (optMin (pqTopKey s.forward_pq) (pqTopKey s.backward_pq)) →
      bidi_loop eF eB (n + 1) s = .ret s) ∧
    (s.forward_pq ≠ [] → s.backward_pq ≠ [] →
      ¬ (s.meeting_station ≠ none ∧
        bestLE s.best_path_cost
          (optMin (pqTopKey s.forward_pq) (pqTopKey s.backward_pq))) →
      bidi_loop eF eB (n + 1) s =
        pyBind (if pqTopLt s.forward_pq s.backward_pq then eF s else eB s)
          (bidi_loop eF eB n)) := by
  refine ⟨?_, ?_, ?_⟩
  · intro h m
    cases m with
    | zero => rfl
    | succ m =>
      unfold bidi_loop
      rw [if_neg (by
        rintro ⟨h1, h2⟩
        rcases h with h | h
        · exact h1 h
        · exact h2 h)]
  · intro h1 h2 h3 h4
    unfold bidi_loop
    rw [if_pos ⟨h1, h2⟩, if_pos ⟨h3, h4⟩]
  · intro h1 h2 h3
    unfold bidi_loop
    rw [if_pos ⟨h1, h2⟩, if_neg h3, if_pos ⟨h1, h2⟩]

/-- Witness for `c2_loop_runs_only_with_both_queues`: the loop with the
backward queue empty stops at once, for identity expansions. -/
theorem c2_witness :
    bidi_loop (fun s => .ret s) (fun s => .ret s) 3
      ⟨[], [], [], [], [], [], [(0, "b")], [], none, none⟩ =
      .ret ⟨[], [], [], [], [], [], [(0, "b")], [], none, none⟩ :=
  (c2_loop_runs_only_with_both_queues (fun s => .ret s) (fun s => .ret s)
    ⟨[], [], [], [], [], [], [(0, "b")], [], none, none⟩ 0).1 (Or.inr rfl) 3

/-- The class `TransportGraph` defines no
`_fetch_outbound_transport_edges_from_db`, so the attribute lookup that
starts `forward_neighbors` fails and the call raises before producing any
neighbour list. -/
theorem forward_neighbors_raises (store : TGStoreBehavior) (station_code : String)
    (current_g : ℝ) (current_time : Option ℝ) (mode : String)
    (cache : LatLonCache) :
    forward_neighbors store station_code current_g current_time mode cache =
      .raised (.attributeError "_fetch_outbound_transport_edges_from_db") := by
  unfold forward_neighbors
  rw [if_neg (by decide)]

/-- Symmetrically, `backward_neighbors` always fails its first attribute
lookup. -/
theorem backward_neighbors_raises (store : TGStoreBehavior) (station_code : String)
    (current_g : ℝ) (current_time : Option ℝ) (mode : String)
    (cache : LatLonCache) :
    backward_neighbors store station_code current_g current_time mode cache =
      .raised (.attributeError "_fetch_inbound_transport_edges_from_db") := by
  unfold backward_neighbors
  rw [if_neg (by decide)]

/-- Looking up the freshly inserted key of a dictionary update. -/
theorem lookup_dictInsert_self {α : Type} (k : String) (v : α)
    (d : List (String × α)) : (dictInsert k v d).lookup k = some v := by
  simp [dictInsert, List.lookup]

/-- Filtering away another key does not change a lookup. -/
theorem lookup_filter_ne {α : Type} {k k2 : String} (h : k2 ≠ k)
    (d : List (String × α)) :
    (d.filter (fun p => decide (p.1 ≠ k))).lookup k2 = d.lookup k2 := by
  induction d with
  | nil => rfl
  | cons a d ih =>
    obtain ⟨a1, a2⟩ := a
    by_cases ha : a1 = k
    · rw [List.filter_cons_of_neg (by simp [ha])]
      have hk2 : (k2 == a1) = false := beq_eq_false_iff_ne.mpr (by rw [ha]; exact h)
      simp only [List.lookup, hk2]
      exact ih
    · rw [List.filter_cons_of_pos (by simp [ha])]
      simp only [List.lookup]
      by_cases hk2 : k2 = a1
      · simp only [show (k2 == a1) = true from beq_iff_eq.mpr hk2]
      · simp only [show (k2 == a1) = false from beq_eq_false_iff_ne.mpr hk2]
        exact ih

/-- Looking up a different key after a dictionary update. -/
theorem lookup_dictInsert_ne {α : Type} {k k2 : String} (h : k2 ≠ k) (v : α)
    (d : List (String × α)) :
    (dictInsert k v d).lookup k2 = d.lookup k2 := by
  unfold dictInsert
  simp only [List.lookup, show (k2 == k) = false from beq_eq_false_iff_ne.mpr h]
  exact lookup_filter_ne h d

/-- A dictionary whose inserted values are all `0` keeps answering `some 0`
after further zero insertions. -/
theorem lookup_dictInsert_zero {k k2 : String} {d : List (String × ℝ)}
    (h : d.lookup k2 = some 0) :
    (dictInsert k 0 d).lookup k2 = some 0 := by
  by_cases hk : k2 = k
  · rw [hk]
    exact lookup_dictInsert_self k 0 d
  · rw [lookup_dictInsert_ne hk 0 d]
    exact h

/-- The pair extracted by `popMin` is an element of the heap. -/
theorem popMin_mem : ∀ (l : List (ℝ × String)) (m : ℝ × String)
    (rest : List (ℝ × String)), popMin l = some (m, rest) → m ∈ l := by
  intro l
  induction l with
  | nil => intro m rest h; simp [popMin] at h
  | cons x xs ih =>
    intro m rest h
    cases hp : popMin xs with
    | none =>
      rw [popMin, hp] at h
      injection h with h2
      rw [Prod.mk.injEq] at h2
      exact h2.1 ▸ List.mem_cons_self _ _
    | some pr =>
      obtain ⟨m2, r2⟩ := pr
      rw [popMin, hp] at h
      change (if pqLe x m2 then some (x, xs) else some (m2, x :: r2)) =
        some (m, rest) at h
      split at h
      · injection h with h2
        rw [Prod.mk.injEq] at h2
        exact h2.1 ▸ List.mem_cons_self _ _
      · injection h with h2
        rw [Prod.mk.injEq] at h2
        exact List.mem_cons_of_mem _ (h2.1 ▸ ih m2 r2 hp)

/-- A nonempty heap always yields a minimum. -/
theorem popMin_of_ne_nil : ∀ (l : List (ℝ × String)), l ≠ [] →
    ∃ m rest, popMin l = some (m, rest) := by
  intro l hl
  cases l with
  | nil => exact absurd rfl hl
  | cons x xs =>
    cases hp : popMin xs with
    | none => exact ⟨x, [], by rw [popMin, hp]⟩
    | some pr =>
      obtain ⟨m2, r2⟩ := pr
      by_cases hle : pqLe x m2
      · exact ⟨x, xs, by rw [popMin, hp]; exact if_pos hle⟩
      · exact ⟨m2, x :: r2, by rw [popMin, hp]; exact if_neg hle⟩

/-- Seeding the forward frontier over a list of start stations: the backward
structures and the meeting state are untouched, the queue grows by one entry
per station, and every queue entry carries its own heuristic as key with a
zero tentative cost recorded in `forward_g`. -/
theorem initForward_foldl (gs : List String) (cache : LatLonCache) (mode : String)
    (t0 : ℝ) :
    ∀ (l : List String) (s : BidiState),
      (∀ p ∈ s.forward_pq, p.1 = heuristic_km p.2 gs cache ∧
        s.forward_g.lookup p.2 = some 0) →
      ((l.foldl (initForwardStep gs cache mode t0) s).backward_g = s.backward_g ∧
       (l.foldl (initForwardStep gs cache mode t0) s).backward_pq = s.backward_pq ∧
       (l.foldl (initForwardStep gs cache mode t0) s).meeting_station =
         s.meeting_station ∧
       (l.foldl (initForwardStep gs cache mode t0) s).forward_pq.length =
         s.forward_pq.length + l.length ∧
       (∀ p ∈ (l.foldl (initForwardStep gs cache mode t0) s).forward_pq,
         p.1 = heuristic_km p.2 gs cache ∧
         (l.foldl (initForwardStep gs cache mode t0) s).forward_g.lookup p.2 =
           some 0)) := by
  intro l
  induction l with
  | nil => intro s hinv; exact ⟨rfl, rfl, rfl, rfl, hinv⟩
  | cons st l ih =>
    intro s hinv
    have hstep_bg : (initForwardStep gs cache mode t0 s st).backward_g =
        s.backward_g := by
      unfold initForwardStep
      split <;> rfl
    have hstep_bpq : (initForwardStep gs cache mode t0 s st).backward_pq =
        s.backward_pq := by
      unfold initForwardStep
      split <;> rfl
    have hstep_ms : (initForwardStep gs cache mode t0 s st).meeting_station =
        s.meeting_station := by
      unfold initForwardStep
      split <;> rfl
    have hstep_pq : (initForwardStep gs cache mode t0 s st).forward_pq =
        (0 + heuristic_km st gs cache, st) :: s.forward_pq := by
      unfold initForwardStep
      split <;> rfl
    have hstep_g : (initForwardStep gs cache mode t0 s st).forward_g =
        dictInsert st 0 s.forward_g := by
      unfold initForwardStep
      split <;> rfl
    have hinv2 : ∀ p ∈ (initForwardStep gs cache mode t0 s st).forward_pq,
        p.1 = heuristic_km p.2 gs cache ∧
        (initForwardStep gs cache mode t0 s st).forward_g.lookup p.2 = some 0 := by
      intro p hp
      rw [hstep_pq] at hp
      rw [hstep_g]
      rcases List.mem_cons.mp hp with rfl | hp2
      · exact ⟨zero_add _, lookup_dictInsert_self st 0 s.forward_g⟩
      · obtain ⟨h1, h2⟩ := hinv p hp2
        exact ⟨h1, lookup_dictInsert_zero h2⟩
    obtain ⟨ih1, ih2, ih3, ih4, ih5⟩ :=
      ih (initForwardStep gs cache mode t0 s st) hinv2
    simp only [List.foldl_cons]
    refine ⟨ih1.trans hstep_bg, ih2.trans hstep_bpq, ih3.trans hstep_ms, ?_, ih5⟩
    rw [ih4, hstep_pq]
    simp only [List.length_cons]
    omega

/-- Seeding the backward frontier over a list of goal stations: the forward
structures and the meeting state are untouched, the queue grows by one entry
per station, and every queue entry carries its own heuristic as key with a
zero tentative cost recorded in `backward_g`. -/
theorem initBackward_foldl (ss : List String) (cache : LatLonCache) (mode : String)
    (t0 : ℝ) :
    ∀ (l : List String) (s : BidiState),
      (∀ p ∈ s.backward_pq, p.1 = heuristic_km p.2 ss cache ∧
        s.backward_g.lookup p.2 = some 0) →
      ((l.foldl (initBackwardStep ss cache mode t0) s).forward_g = s.forward_g ∧
       (l.foldl (initBackwardStep ss cache mode t0) s).forward_pq = s.forward_pq ∧
       (l.foldl (initBackwardStep ss cache mode t0) s).meeting_station =
         s.meeting_station ∧
       (l.foldl (initBackwardStep ss cache mode t0) s).backward_pq.length =
         s.backward_pq.length + l.length ∧
       (∀ p ∈ (l.foldl (initBackwardStep ss cache mode t0) s).backward_pq,
         p.1 = heuristic_km p.2 ss cache ∧
         (l.foldl (initBackwardStep ss cache mode t0) s).backward_g.lookup p.2 =
           some 0)) := by
  intro l
  induction l with
  | nil => intro s hinv; exact ⟨rfl, rfl, rfl, rfl, hinv⟩
  | cons gst l ih =>
    intro s hinv
    have hinv2 : ∀ p ∈ (initBackwardStep ss cache mode t0 s gst).backward_pq,
        p.1 = heuristic_km p.2 ss cache ∧
        (initBackwardStep ss cache mode t0 s gst).backward_g.lookup p.2 = some 0 := by
      intro p hp
      rcases List.mem_cons.mp hp with rfl | hp2
      · exact ⟨zero_add _, lookup_dictInsert_self gst 0 s.backward_g⟩
      · obtain ⟨h1, h2⟩ := hinv p hp2
        exact ⟨h1, lookup_dictInsert_zero h2⟩
    obtain ⟨ih1, ih2, ih3, ih4, ih5⟩ :=
      ih (initBackwardStep ss cache mode t0 s gst) hinv2
    simp only [List.foldl_cons]
    refine ⟨ih1, ih2, ih3, ?_, ih5⟩
    rw [ih4]
    simp only [initBackwardStep, List.length_cons]
    omega

/-- Whenever the forward queue is nonempty with queue keys equal to the
popped station's heuristic and zero tentative costs (the initial seeding),
one forward expansion reaches the neighbour generation and raises the
attribute error of the missing outbound fetch method. -/
theorem expand_forward_raises (store : TGStoreBehavior) (gs : List String)
    (cache : LatLonCache) (mode : String) (t0 : ℝ) (s : BidiState)
    (hne : s.forward_pq ≠ [])
    (hinv : ∀ p ∈ s.forward_pq, p.1 = heuristic_km p.2 gs cache ∧
      s.forward_g.lookup p.2 = some 0) :
    expand_forward store gs cache mode t0 s =
      .raised (.attributeError "_fetch_outbound_transport_edges_from_db") := by
  obtain ⟨m, rest, hpop⟩ := popMin_of_ne_nil _ hne
  obtain ⟨fv, st⟩ := m
  obtain ⟨hf, hlook⟩ := hinv _ (popMin_mem _ _ _ hpop)
  have hf2 : fv = heuristic_km st gs cache := hf
  have hstale : ¬ ((0 : ℝ) + heuristic_km st gs cache < fv - epsStale) := by
    rw [hf2]
    unfold epsStale
    intro hcon
    linarith
  unfold expand_forward
  rw [hpop]
  simp only []
  rw [show ({ s with forward_pq := rest } : BidiState).forward_g = s.forward_g
    from rfl]
  rw [hlook]
  simp only []
  rw [if_neg (by simpa using hstale)]
  rw [forward_neighbors_raises]
  rfl

/-- Symmetric raising lemma for one backward expansion. -/
theorem expand_backward_raises (store : TGStoreBehavior) (ss : List String)
    (cache : LatLonCache) (mode : String) (s : BidiState)
    (hne : s.backward_pq ≠ [])
    (hinv : ∀ p ∈ s.backward_pq, p.1 = heuristic_km p.2 ss cache ∧
      s.backward_g.lookup p.2 = some 0) :
    expand_backward store ss cache mode s =
      .raised (.attributeError "_fetch_inbound_transport_edges_from_db") := by
  obtain ⟨m, rest, hpop⟩ := popMin_of_ne_nil _ hne
  obtain ⟨fv, st⟩ := m
  obtain ⟨hf, hlook⟩ := hinv _ (popMin_mem _ _ _ hpop)
  have hf2 : fv = heuristic_km st ss cache := hf
  have hstale : ¬ ((0 : ℝ) + heuristic_km st ss cache < fv - epsStale) := by
    rw [hf2]
    unfold epsStale
    intro hcon
    linarith
  unfold expand_backward
  rw [hpop]
  simp only []
  rw [show ({ s with backward_pq := rest } : BidiState).backward_g = s.backward_g
    from rfl]
  rw [hlook]
  simp only []
  rw [if_neg (by simpa using hstale)]
  rw [backward_neighbors_raises]
  rfl

/-- C1.  The `TransportGraph` store adapter defines none of the four
`_fetch_*_edges_from_db` methods, so `forward_neighbors` and
`backward_neighbors` raise an attribute-lookup error before returning any
neighbour list, for every station code, instant, cost mode and lat/lon
cache; consequently `bidirectional_a_star` with nonempty start and goal sets
raises on its first frontier expansion and never completes one. -/
theorem c1_missing_fetch_methods_abort_search (store : TGStoreBehavior)
    (station_code : String) (g : ℝ) (t : Option ℝ) (mode : String)
    (cache : LatLonCache) (s0 : String) (ss : List String) (g0 : String)
    (gs : List String) (t0 : ℝ) (fuel : Nat) :
    forward_neighbors store station_code g t mode cache =
      .raised (.attributeError "_fetch_outbound_transport_edges_from_db") ∧
    backward_neighbors store station_code g t mode cache =
      .raised (.attributeError "_fetch_inbound_transport_edges_from_db") ∧
    ∃ name, (name = "_fetch_outbound_transport_edges_from_db" ∨
             name = "_fetch_inbound_transport_edges_from_db") ∧
      bidirectional_a_star store (s0 :: ss) (g0 :: gs) t0 mode cache (fuel + 1) =
        .raised (.attributeError name) := by
  refine ⟨forward_neighbors_raises store station_code g t mode cache,
    backward_neighbors_raises store station_code g t mode cache, ?_⟩
  set base : BidiState := ⟨[], [], [], [], [], [], [], [], none, none⟩ with hbase
  set s1 := (s0 :: ss).foldl (initForwardStep (g0 :: gs) cache mode t0) base
    with hs1
  set sI := (g0 :: gs).foldl (initBackwardStep (s0 :: ss) cache mode t0) s1
    with hsI
  obtain ⟨h1, h2, h3, h4, h5⟩ :=
    initForward_foldl (g0 :: gs) cache mode t0 (s0 :: ss) base
      (by intro p hp; exact absurd hp (List.not_mem_nil p))
  have h2e : s1.backward_pq = [] := h2
  have h3e : s1.meeting_station = none := h3
  obtain ⟨b1, b2, b3, b4, b5⟩ :=
    initBackward_foldl (s0 :: ss) cache mode t0 (g0 :: gs) s1
      (by intro p hp; rw [h2e] at hp; exact absurd hp (List.not_mem_nil p))
  have hmeet : sI.meeting_station = none := by rw [b3, h3e]
  have hfpq : sI.forward_pq = s1.forward_pq := b2
  have hflen : s1.forward_pq.length = ss.length + 1 := by
    have h4e : s1.forward_pq.length = 0 + (s0 :: ss).length := h4
    rw [h4e]
    simp
  have hfne : sI.forward_pq ≠ [] := by
    rw [hfpq]
    intro hcon
    rw [hcon] at hflen
    simp at hflen
  have hblen : sI.backward_pq.length = gs.length + 1 := by
    rw [b4, h2e]
    simp
  have hbne : sI.backward_pq ≠ [] := by
    intro hcon
    rw [hcon] at hblen
    simp at hblen
  have hinvf : ∀ p ∈ sI.forward_pq, p.1 = heuristic_km p.2 (g0 :: gs) cache ∧
      sI.forward_g.lookup p.2 = some 0 := by
    intro p hp
    rw [hfpq] at hp
    obtain ⟨ha, hb⟩ := h5 p hp
    refine ⟨ha, ?_⟩
    rw [b1]
    exact hb
  by_cases hlt : pqTopLt sI.forward_pq sI.backward_pq
  · refine ⟨"_fetch_outbound_transport_edges_from_db", Or.inl rfl, ?_⟩
    have hloop : bidi_loop (expand_forward store (g0 :: gs) cache mode t0)
        (expand_backward store (s0 :: ss) cache mode) (fuel + 1) sI =
        .raised (.attributeError "_fetch_outbound_transport_edges_from_db") := by
      unfold bidi_loop
      rw [if_pos ⟨hfne, hbne⟩]
      rw [if_neg (by rw [hmeet]; simp)]
      rw [if_pos ⟨hfne, hbne⟩]
      rw [if_pos hlt]
      rw [expand_forward_raises store (g0 :: gs) cache mode t0 sI hfne hinvf]
      rfl
    simp only [bidirectional_a_star, initBidi]
    rw [← hbase, ← hs1, ← hsI, hloop]
    rfl
  · refine ⟨"_fetch_inbound_transport_edges_from_db", Or.inr rfl, ?_⟩
    have hloop : bidi_loop (expand_forward store (g0 :: gs) cache mode t0)
        (expand_backward store (s0 :: ss) cache mode) (fuel + 1) sI =
        .raised (.attributeError "_fetch_inbound_transport_edges_from_db") := by
      unfold bidi_loop
      rw [if_pos ⟨hfne, hbne⟩]
      rw [if_neg (by rw [hmeet]; simp)]
      rw [if_pos ⟨hfne, hbne⟩]
      rw [if_neg hlt]
      rw [expand_backward_raises store (s0 :: ss) cache mode sI hbne b5]
      rfl
    simp only [bidirectional_a_star, initBidi]
    rw [← hbase, ← hs1, ← hsI, hloop]
    rfl
